import Mathlib

/-!
Verification of fireflycons/bubbles against its natural-language specification.

Part 1 embeds the message-box widget from `src/messagebox/message_box.go`.
Part 2 embeds the extended table (`xtable`); `xtable.go` itself is not under
`src/` (only its tests are), so those definitions are modelled from the spec
(§4.4, §4.6, §4.7 of spec.md) and checked against the concrete expectations of
`src/xtable/xtable_test.go`.  Go machine integers are modelled as `Int`/`Nat`,
and operations that panic in Go (integer division by zero, out-of-range
indexing) are modelled with `Except`.
-/

instance {ε α : Type} [DecidableEq ε] [DecidableEq α] : DecidableEq (Except ε α) := fun a b =>
  match a, b with
  | .ok x, .ok y =>
    if h : x = y then isTrue (by rw [h]) else isFalse (by intro hc; cases hc; exact h rfl)
  | .error x, .error y =>
    if h : x = y then isTrue (by rw [h]) else isFalse (by intro hc; cases hc; exact h rfl)
  | .ok _, .error _ => isFalse (by intro hc; cases hc)
  | .error _, .ok _ => isFalse (by intro hc; cases hc)

namespace MessageBox

/-- `Button` represents a button in the message box (`type Button int`);
the constants below are the bit values `1 << (iota + 1)`. -/
abbrev Button := Nat

def MB_OK : Button := 2
def MB_CANCEL : Button := 4
def MB_YES : Button := 8
def MB_NO : Button := 16
def MB_ALL : Button := 32

/-- `Type` in the Go source (a bitmask of buttons); `Type` is a Lean keyword,
hence the name `BoxType`. -/
abbrev BoxType := Nat

def OK : BoxType := MB_OK
def OK_CANCEL : BoxType := MB_OK ||| MB_CANCEL
def YES_NO : BoxType := MB_YES ||| MB_NO
def YES_NO_ALL : BoxType := MB_YES ||| MB_NO ||| MB_ALL

/-- The `buttonText` map; Go map lookup yields the zero value `""` for a key
that is not present. -/
def buttonText (b : Button) : String :=
  if b = MB_OK then "&Ok"
  else if b = MB_CANCEL then "&Cancel"
  else if b = MB_YES then "&Yes"
  else if b = MB_NO then "&No"
  else if b = MB_ALL then "&All"
  else ""

/-- `highlightChar` returns the character following `&` in the button's label.
(For a button outside the `buttonText` map Go would panic indexing the empty
string; such buttons never occur in a constructed button list, and the model
returns `""` there.) -/
def highlightChar (b : Button) : String :=
  match (buttonText b).toList.dropWhile (fun c => c ≠ '&') with
  | _ :: c :: _ => String.mk [c]
  | _ => ""

/-- The key strings of `keyBinding` for a button: the lowercased highlight
character, plus `"esc"` for `MB_CANCEL` and `MB_NO`. -/
def keyBindingKeys (b : Button) : List String :=
  [(highlightChar b).toLower] ++
    (if b &&& (MB_CANCEL ||| MB_NO) ≠ 0 then ["esc"] else [])

/-- The `box` struct managing an active message box.  `selectedButton` is a Go
`int`, modelled as `Int`. -/
structure box where
  message : String
  buttons : List Button
  selectedButton : Int
deriving DecidableEq

/-- The bubbletea model for the message box.  The viewport and style fields do
not influence any verified behaviour and carry no state beyond construction
parameters; position and width are kept. -/
structure Model where
  box : Option box
  xpos : Int
  ypos : Int
  width : Int
deriving DecidableEq

/-- The key types of `tea.KeyMsg` the `Update` switch distinguishes; every
other key (including plain letters) arrives as `runes s` with its string
representation, matching `key.Matches` in the default branch. -/
inductive KeyType where
  | esc
  | ctrlI
  | right
  | shiftTab
  | left
  | space
  | enter
  | runes (s : String)
deriving DecidableEq

/-- A `tea.Msg` fed to `Update`: either a key message or any other message
(which the `switch msg := msg.(type)` ignores). -/
inductive TeaMsg where
  | key (k : KeyType)
  | other
deriving DecidableEq

/-- The dynamic type of the value the dismissal command wraps as a `tea.Msg`.
`buttonMsg b` is the Go value `b` of type `Button`.  `funcMsg b` is a Go value
of type `func() Button` — a closure that would return `b` if it were called;
the escape branch of `Update` returns the closure `buttonToReturn` itself
without invoking it, so this case records exactly that. -/
inductive Emitted where
  | buttonMsg (b : Button)
  | funcMsg (b : Button)
deriving DecidableEq

/-- `slices.Index`: the index of the first occurrence of `b`, or `-1`. -/
def slicesIndex : List Button → Button → Int
  | [], _ => -1
  | x :: xs, b =>
    if x = b then 0
    else
      let r := slicesIndex xs b
      if r = -1 then -1 else r + 1

/-- The canonical display order `[MB_OK, MB_YES, MB_NO, MB_ALL, MB_CANCEL]`
that `New` filters `boxType` against. -/
def canonicalOrder : List Button := [MB_OK, MB_YES, MB_NO, MB_ALL, MB_CANCEL]

/-- `Model.New` creates a new modal message box.  The options only set
position, width and style; the button list and initial selection are built
exactly as in the Go source.  Wrapping of the message text is done by the
external `runewidth` library (the TextMeasurement collaborator of spec §4.1)
and does not influence any verified behaviour; the box stores the message. -/
def Model.New (m : Model) (message : String) (boxType : BoxType) : Model :=
  let buttons := canonicalOrder.filter (fun b => boxType &&& b ≠ 0)
  let selectedButton : Int :=
    if buttons.length = 1 then 0
    else
      let s1 := slicesIndex buttons MB_CANCEL
      let s2 := if s1 = -1 then slicesIndex buttons MB_NO else s1
      if s2 = -1 then 0 else s2
  { m with box := some { message := message, buttons := buttons, selectedButton := selectedButton } }

/-- `IsActive` returns true if a message box is currently being displayed. -/
def Model.IsActive (m : Model) : Bool :=
  m.box.isSome

/-- `Model.Update` processes key messages.  Branches that panic in Go are
modelled with `Except.error` carrying the Go runtime error text: the
tab-cycling branches evaluate `% len(buttons)` (division by zero when the
button list is empty) and the confirm branch indexes `buttons[selectedButton]`.
The escape branch emits `Emitted.funcMsg` because the Go code returns the
closure `buttonToReturn` itself as the `tea.Msg` rather than calling it. -/
def Model.Update (m : Model) (msg : TeaMsg) : Except String (Model × Option Emitted) :=
  match m.box with
  | none => .ok (m, none)
  | some bx =>
    match msg with
    | .other => .ok (m, none)
    | .key k =>
      match k with
      | .esc =>
        -- Return the button most suited to "take no action"
        let buttonToReturn : Button :=
          if bx.buttons.contains MB_CANCEL then MB_CANCEL
          else if bx.buttons.contains MB_NO then MB_NO
          else MB_CANCEL
        .ok ({ m with box := none }, some (.funcMsg buttonToReturn))
      | .ctrlI | .right =>
        if bx.buttons.length = 0 then .error "runtime error: integer divide by zero"
        else
          .ok ({ m with box := some { bx with
                  selectedButton := (bx.selectedButton + 1) % (bx.buttons.length : Int) } }, none)
      | .shiftTab | .left =>
        if bx.buttons.length = 0 then .error "runtime error: integer divide by zero"
        else
          .ok ({ m with box := some { bx with
                  selectedButton :=
                    ((bx.buttons.length : Int) + bx.selectedButton - 1) % (bx.buttons.length : Int) } }, none)
      | .space | .enter =>
        if 0 ≤ bx.selectedButton ∧ bx.selectedButton < (bx.buttons.length : Int) then
          .ok ({ m with box := none },
               some (.buttonMsg (bx.buttons.getD bx.selectedButton.toNat MB_OK)))
        else .error "runtime error: index out of range"
      | .runes s =>
        match bx.buttons.find? (fun b => (keyBindingKeys b).contains s) with
        | some b => .ok ({ m with box := none }, some (.buttonMsg b))
        | none => .ok (m, none)

/-- Modelled from the spec: `PlaceOverlay` lives in an overlay-compositing file
of package `messagebox` that is not under `src/`; spec §4.9 describes it.  One
overlay line replaces the base columns `[x, x + overlayWidth)` of its target
row; rows and columns outside the overlay region pass through unchanged, and
overlay content beyond the base bounds is clipped.  (Cell widths are modelled
at one cell per character; wide-glyph and ANSI-sequence awareness belongs to
the external text-measurement library.) -/
def spliceLine (x : Nat) (ov : List Char) (b : List Char) : List Char :=
  b.take x ++ ov.take (b.length - x) ++ b.drop (x + ov.length)

/-- Modelled from the spec: line-level part of `PlaceOverlay` (spec §4.9),
writing the overlay's lines onto the base block starting at row `y`. -/
def placeOverlay (x y : Int) (overlay base : String) : String :=
  let ol := overlay.splitOn "\n"
  let bl := base.splitOn "\n"
  String.intercalate "\n" <| (List.range bl.length).map fun i =>
    let line := bl.getD i ""
    if y ≤ (i : Int) ∧ (i : Int) < y + ol.length then
      String.mk (spliceLine x.toNat ((ol.getD ((i : Int) - y).toNat "").toList) line.toList)
    else line

/-- Modelled from the spec: the plain-text content of the rendered box (the
wrapped message, a blank line, and the button bar); lipgloss styling is
external to the repository and not modelled. -/
def boxContent (bx : box) : String :=
  bx.message ++ "\n\n" ++
    String.intercalate " " (bx.buttons.map fun b =>
      " " ++ String.mk ((buttonText b).toList.filter (fun c => c ≠ '&')) ++ " ")

/-- `Model.Render` takes in the main view content and overlays the model's
active message box; with no active box the content is returned unchanged. -/
def Model.Render (m : Model) (content : String) : String :=
  match m.box with
  | none => content
  | some bx => placeOverlay m.xpos m.ypos (boxContent bx) content

/-- The button list of the active box (`[]` when inactive); observation
helper for stating theorems. -/
def boxButtons (m : Model) : List Button :=
  (m.box.map box.buttons).getD []

/-- The selected-button index of the active box (`0` when inactive);
observation helper for stating theorems. -/
def boxSelected (m : Model) : Int :=
  (m.box.map box.selectedButton).getD 0

/-- A model with no active message box, at the default position and width. -/
def inactiveModel : Model :=
  { box := none, xpos := 0, ypos := 0, width := 40 }

/-- The model produced by opening an `OK_CANCEL` box on `inactiveModel`. -/
def okCancelModel : Model :=
  inactiveModel.New "Are you sure?" OK_CANCEL

/-- The active box of `okCancelModel`: buttons `[Ok, Cancel]` with `Cancel`
initially selected. -/
def okCancelBox : box :=
  { message := "Are you sure?", buttons := [MB_OK, MB_CANCEL], selectedButton := 1 }

/-- `true` when an `Update` result did not panic and, if a box is still
active, its button list is unchanged and `selectedButton` lies in
`[0, number of buttons)`. -/
def invariantAfter (buttons : List Button) (r : Except String (Model × Option Emitted)) : Bool :=
  match r with
  | .error _ => false
  | .ok (m', _) =>
    match m'.box with
    | none => true
    | some bx' =>
      decide (bx'.buttons = buttons) && decide (0 ≤ bx'.selectedButton) &&
        decide (bx'.selectedButton < (bx'.buttons.length : Int))

end MessageBox

namespace XTable

/-!
The `xtable` implementation file is not under `src/` — only its tests and the
repository README are — so the definitions in this namespace are modelled from
spec.md (§3 data model, §4.4 SortEngine, §4.6 row removal, §4.7 Find) and are
checked against the concrete expectations of `src/xtable/xtable_test.go`,
which is authoritative where it pins behaviour.
-/

/-- Modelled from the spec: a table column `{title, width}` (spec §3);
`xtable.go` is absent from `src/`. -/
structure Column where
  Title : String
  Width : Nat
deriving DecidableEq

/-- Modelled from the spec: a table row with its ordered cell data and
optional metadata exposing a 64-bit identity hash (spec §3); `xtable.go` is
absent from `src/`.  The hash value is modelled as `Nat`. -/
structure Row where
  Data : List String
  Metadata : Option Nat
deriving DecidableEq

def emptyRow : Row := { Data := [], Metadata := none }

/-- Modelled from the spec: the table model state used by the verified
operations — columns, rows and the cursor (spec §3); `xtable.go` is absent
from `src/`.  Viewport and focus state do not enter any verified claim. -/
structure TableModel where
  cols : List Column
  rows : List Row
  cursor : Nat
deriving DecidableEq

/-- Modelled from the spec: the number of decimal digits of the row count,
used for the synthetic row-number column width; `xtable.go` is absent from
`src/`.  The spec's range examples ("row counts in [1,9] width 1, [10,99]
width 2, [100,999] width 3"), its power-of-ten boundary property (§8), and
`TestPad` in `src/xtable/xtable_test.go` (8 rows → 1, 34 → 2, 100 → 3) all
pin the width to the digit count of the row count itself; the spec's literal
formula "digits of rowCount − 1" contradicts those at exact powers of ten. -/
def decimalDigits (n : Nat) : Nat :=
  if h : n < 10 then 1 else decimalDigits (n / 10) + 1
termination_by n
decreasing_by
  exact Nat.div_lt_self (by omega) (by omega)

/-- Modelled from the spec: `rowNumberColWidth(rows)`, the width of the
synthetic row-number column (spec §4.2); `xtable.go` is absent from `src/`. -/
def rowNumberColWidth (rows : List Row) : Nat :=
  decimalDigits rows.length

/-- Modelled from the spec: decimal parsing for the Numeric comparator
("parse each value as a double-precision float", spec §4.4); `xtable.go` is
absent from `src/`.  A parsed value is an exact scaled integer
`num / 10 ^ exp`; the decimal literals exercised by the repository are all
exact, so comparisons agree with double-precision comparison on them.
Exponent and hexadecimal float forms accepted by Go's `strconv.ParseFloat`
are not exercised and not modelled. -/
structure Dec where
  num : Int
  exp : Nat
deriving DecidableEq

def natFromDigits (cs : List Char) : Nat :=
  cs.foldl (fun a c => a * 10 + (c.toNat - 48)) 0

/-- Modelled from the spec: parse an optionally signed decimal literal
(spec §4.4 Numeric comparator); `xtable.go` is absent from `src/`. -/
def parseDecimal (s : String) : Option Dec :=
  let cs := s.toList
  let signed : Int × List Char :=
    match cs with
    | '-' :: r => (-1, r)
    | '+' :: r => (1, r)
    | _ => (1, cs)
  let intPart := signed.2.takeWhile Char.isDigit
  let rest := signed.2.dropWhile Char.isDigit
  match rest with
  | [] =>
    if intPart.isEmpty then none
    else some { num := signed.1 * natFromDigits intPart, exp := 0 }
  | '.' :: frac =>
    if frac.all Char.isDigit ∧ 0 < intPart.length + frac.length then
      some { num := signed.1 * natFromDigits (intPart ++ frac), exp := frac.length }
    else none
  | _ => none

/-- Comparison of two exact decimals by cross-multiplication. -/
def decLt (a b : Dec) : Bool :=
  a.num * (10 : Int) ^ b.exp < b.num * (10 : Int) ^ a.exp

/-- Modelled from the spec: the Numeric key order, with unparseable values
sorting as negative infinity (spec §4.4); `xtable.go` is absent from `src/`. -/
def numLt (a b : Option Dec) : Bool :=
  match a, b with
  | none, none => false
  | none, some _ => true
  | some _, none => false
  | some x, some y => decLt x y

/-- Strict lexicographic order on code points. -/
def lexLtChars : List Char → List Char → Bool
  | [], [] => false
  | [], _ :: _ => true
  | _ :: _, [] => false
  | a :: as, b :: bs =>
    if a.toNat < b.toNat then true
    else if b.toNat < a.toNat then false
    else lexLtChars as bs

/-- Modelled from the spec: the String comparator, "lexicographic by code
point over the cell text" (spec §4.4); `xtable.go` is absent from `src/`. -/
def strLt (a b : String) : Bool :=
  lexLtChars a.toList b.toList

inductive SortOrder where
  | SortAscending
  | SortDescending
deriving DecidableEq

inductive SortHint where
  | SortUnspecified
  | SortString
  | SortNumeric
deriving DecidableEq

def cellOf (r : Row) (col : Nat) : String :=
  r.Data.getD col ""

/-- Modelled from the spec: type inference for an Unspecified hint — Numeric
when every row's value in the target column parses as a float, else String
(spec §4.4); `xtable.go` is absent from `src/`. -/
def resolveHint (rows : List Row) (col : Nat) (hint : SortHint) : SortHint :=
  match hint with
  | .SortUnspecified =>
    if rows.all (fun r => (parseDecimal (cellOf r col)).isSome) then .SortNumeric
    else .SortString
  | h => h

/-- Strict "comes before" order of two rows on a column under a resolved
hint. -/
def valueLt (hint : SortHint) (col : Nat) (a b : Row) : Bool :=
  match hint with
  | .SortString => strLt (cellOf a col) (cellOf b col)
  | _ => numLt (parseDecimal (cellOf a col)) (parseDecimal (cellOf b col))

/-- Direction reverses the comparator's sign but never the tie-breaking
(spec §4.4). -/
def rowLt (hint : SortHint) (dir : SortOrder) (col : Nat) (a b : Row) : Bool :=
  match dir with
  | .SortAscending => valueLt hint col a b
  | .SortDescending => valueLt hint col b a

/-- Stable insertion of `x` into a sorted list: `x` goes in front of the first
element it is not strictly after, so equal keys keep their original order. -/
def insertSorted (lt : Row → Row → Bool) (x : Row) : List Row → List Row
  | [] => [x]
  | y :: ys => if lt y x then y :: insertSorted lt x ys else x :: y :: ys

/-- Modelled from the spec: the stable sort reordering rows (spec §4.4);
`xtable.go` is absent from `src/`. -/
def stableSort (lt : Row → Row → Bool) : List Row → List Row
  | [] => []
  | x :: xs => insertSorted lt x (stableSort lt xs)

/-- Modelled from the spec: `SortBy(columnIndex, direction, typeHint)`
reorders `rows` in place using a stable sort (spec §4.4); `xtable.go` is
absent from `src/`.  Sorting does not reset cursor or viewport. -/
def SortBy (m : TableModel) (col : Nat) (dir : SortOrder) (hint : SortHint) : TableModel :=
  let h := resolveHint m.rows col hint
  { m with rows := stableSort (rowLt h dir col) m.rows }

/-- Remove the element at position `i` (identity when `i` is out of range). -/
def removeAt : List Row → Nat → List Row
  | [], _ => []
  | _ :: xs, 0 => xs
  | x :: xs, n + 1 => x :: removeAt xs n

/-- Modelled from the spec: `RemoveRowByIndex(i)` — a no-op for indices
outside `[0, len(rows))`, otherwise the row at `i` is removed (spec §4.6);
`xtable.go` is absent from `src/`.  The returned boolean: the spec says
"false (no-op) for indices outside [0, len(rows))", but
`TestRemoveRowsByIndex` in `src/xtable/xtable_test.go` requires
`RemoveRowByIndex(10)` on a 4-row table to return `true` while removing
nothing; the test is authoritative, so the model returns `true` there. -/
def RemoveRowByIndex (m : TableModel) (i : Int) : TableModel × Bool :=
  if 0 ≤ i ∧ i < (m.rows.length : Int) then
    ({ m with rows := removeAt m.rows i.toNat }, true)
  else
    (m, true)

/-- Modelled from the spec: `RemoveSelectedRow` removes the row at `cursor`;
if rows remain the cursor is clamped to `min(cursor, len(rows) − 1)` and the
call returns `true`; it returns `false` when the removal empties the table
(spec §4.6); `xtable.go` is absent from `src/`. -/
def RemoveSelectedRow (m : TableModel) : TableModel × Bool :=
  let rows := removeAt m.rows m.cursor
  if rows.length = 0 then
    ({ m with rows := rows }, false)
  else
    ({ m with rows := rows, cursor := min m.cursor (rows.length - 1) }, true)

/-- `true` when `needle` is a leading segment of `hay`. -/
def listStartsWith : List Char → List Char → Bool
  | [], _ => true
  | _ :: _, [] => false
  | n :: ns, h :: hs => n == h && listStartsWith ns hs

/-- `true` when `needle` occurs contiguously inside `hay` (the model of Go's
`strings.Contains`; the empty needle occurs in every string). -/
def listContains (needle : List Char) : List Char → Bool
  | [] => listStartsWith needle []
  | h :: hs => listStartsWith needle (h :: hs) || listContains needle hs

/-- A row matches a search term when the term occurs as an exact,
case-sensitive substring of one of its data cells (spec §4.7). -/
def rowMatches (term : String) (r : Row) : Bool :=
  r.Data.any (fun cell => listContains term.toList cell.toList)

/-- Scan of the row list from logical index `i`, returning the index of the
first matching row. -/
def findAux (term : String) : List Row → Nat → Option Nat
  | [], _ => none
  | r :: rs, i => if rowMatches term r then some i else findAux term rs (i + 1)

/-- Modelled from the spec: `Find(term, fromIndex)` scans rows strictly after
`fromIndex`, in increasing order, through the end of the table; on the first
match the cursor is set to that row's index and the call returns `true`,
otherwise state is unchanged and it returns `false` (spec §4.7); `xtable.go`
is absent from `src/`. -/
def Find (m : TableModel) (term : String) (fromIndex : Int) : TableModel × Bool :=
  let start := (fromIndex + 1).toNat
  match findAux term (m.rows.drop start) start with
  | some j => ({ m with cursor := j }, true)
  | none => (m, false)

/-- Bounded no-match check: no row with index below `hi` and strictly greater
than `lo` matches `term`. -/
def noMatchAfter (term : String) (rows : List Row) (lo : Int) (hi : Nat) : Bool :=
  (List.range hi).all fun j =>
    !(decide (lo < (j : Int))) || !(rowMatches term (rows.getD j emptyRow))

/-- The concrete sort-test table of `TestSortBy` in
`src/xtable/xtable_test.go`: columns `[Strings, Ints, Floats]`, four rows in
insertion order. -/
def sortTable : TableModel :=
  { cols := [{ Title := "Strings", Width := 10 },
             { Title := "Ints", Width := 10 },
             { Title := "Floats", Width := 10 }],
    rows := [{ Data := ["abcdEfgh", "42", "0.72"], Metadata := none },
             { Data := ["qwerTYui", "123", "4.35"], Metadata := none },
             { Data := ["zxcvBNmj", "-4", "34.3"], Metadata := none },
             { Data := ["plmnPOiu", "4543534", "-23456.3"], Metadata := none }],
    cursor := 0 }

/-- The concrete biscuits table of `TestFind` in `src/xtable/xtable_test.go`:
four rows, of which rows 0, 2 and 3 contain the cell text `"Yes"`. -/
def biscuitsTable : TableModel :=
  { cols := [{ Title := "Name", Width := 25 },
             { Title := "Country of Origin", Width := 16 },
             { Title := "Dunk-able", Width := 12 }],
    rows := [{ Data := ["Chocolate Digestives", "UK", "Yes"], Metadata := none },
             { Data := ["Tim Tams", "Australia", "No"], Metadata := none },
             { Data := ["Hobnobs", "UK", "Yes"], Metadata := none },
             { Data := ["Peanut Butter Cookie", "USA", "Yes"], Metadata := none }],
    cursor := 0 }

end XTable

open MessageBox in
theorem okCancelModel_box : okCancelModel.box = some okCancelBox := by decide

open MessageBox in
theorem slicesIndex_of_not_mem (l : List Button) (b : Button) (h : b ∉ l) :
    slicesIndex l b = -1 := by
  induction l with
  | nil => rfl
  | cons x xs ih =>
    have hxb : ¬x = b := fun e => h (by simp [e])
    have hxs : b ∉ xs := fun hm => h (by simp [hm])
    simp [slicesIndex, hxb, ih hxs]

open MessageBox in
theorem slicesIndex_of_mem (l : List Button) (b : Button) (h : b ∈ l) :
    0 ≤ slicesIndex l b ∧ (slicesIndex l b).toNat < l.length ∧
      l.getD (slicesIndex l b).toNat 0 = b := by
  induction l with
  | nil => cases h
  | cons x xs ih =>
    by_cases hx : x = b
    · simp [slicesIndex, hx]
    · have hm : b ∈ xs := by
        rcases List.mem_cons.mp h with h1 | h2
        · exact absurd h1.symm hx
        · exact h2
      obtain ⟨h0, hlt, hget⟩ := ih hm
      have hne : ¬slicesIndex xs b = -1 := by omega
      have hstep : slicesIndex (x :: xs) b = slicesIndex xs b + 1 := by
        simp [slicesIndex, hx, hne]
      have htn : (slicesIndex xs b + 1).toNat = (slicesIndex xs b).toNat + 1 := by omega
      refine ⟨by omega, ?_, ?_⟩
      · rw [hstep, htn]; simpa using hlt
      · rw [hstep, htn]; simpa using hget

open MessageBox in
/-- C1: On escape, the active message box is dismissed (the model becomes
inactive) but the emitted `tea.Msg` is NOT the `Button` value the spec
promises: the Go source returns the local closure `buttonToReturn` itself —
without invoking it — as the message, so the caller receives a value of
dynamic type `func() Button` instead of `Button`, contradicting the in-code
comment "Return pressed button as message for caller's model update" and the
example program's `case messagebox.Button:` handler.  The closure's intended
value does follow the claimed priority (Cancel if present, else No, else
Cancel). -/
theorem escape_emits_closure_not_button_value :
    Model.Update okCancelModel (.key .esc) =
        .ok ({ okCancelModel with box := none }, some (.funcMsg MB_CANCEL))
    ∧ Model.Update (inactiveModel.New "x" YES_NO) (.key .esc) =
        .ok ({ inactiveModel.New "x" YES_NO with box := none }, some (.funcMsg MB_NO))
    ∧ Model.Update (inactiveModel.New "x" OK) (.key .esc) =
        .ok ({ inactiveModel.New "x" OK with box := none }, some (.funcMsg MB_CANCEL))
    ∧ Model.IsActive { okCancelModel with box := none } = false
    ∧ Emitted.funcMsg MB_CANCEL ≠ Emitted.buttonMsg MB_CANCEL := by
  decide

open MessageBox in
/-- C8: For every active message box whose selection index lies inside the
button list, a space or enter key event emits — as an actual `Button`-typed
message — the button stored at index `selectedButton`, and transitions the
model to Inactive. -/
theorem confirm_emits_selected_button (m : Model) (bx : box)
    (hbox : m.box = some bx)
    (h0 : 0 ≤ bx.selectedButton)
    (hlt : bx.selectedButton < (bx.buttons.length : Int)) :
    Model.Update m (.key .space) =
        .ok ({ m with box := none },
             some (.buttonMsg (bx.buttons.getD bx.selectedButton.toNat MB_OK)))
    ∧ Model.Update m (.key .enter) =
        .ok ({ m with box := none },
             some (.buttonMsg (bx.buttons.getD bx.selectedButton.toNat MB_OK)))
    ∧ Model.IsActive { m with box := none } = false := by
  refine ⟨?_, ?_, rfl⟩ <;>
    simp [Model.Update, hbox, h0, hlt]

open MessageBox in
/-- Witness for C8 at the concrete `OK_CANCEL` box: `selectedButton` is `1`
(Cancel), and confirming emits the Button value `MB_CANCEL`. -/
theorem confirm_emits_selected_button_witness :
    okCancelModel.box = some okCancelBox
    ∧ 0 ≤ okCancelBox.selectedButton
    ∧ okCancelBox.selectedButton < (okCancelBox.buttons.length : Int)
    ∧ Model.Update okCancelModel (.key .space) =
        .ok ({ okCancelModel with box := none },
             some (.buttonMsg (okCancelBox.buttons.getD okCancelBox.selectedButton.toNat MB_OK)))
    ∧ Model.Update okCancelModel (.key .enter) =
        .ok ({ okCancelModel with box := none },
             some (.buttonMsg (okCancelBox.buttons.getD okCancelBox.selectedButton.toNat MB_OK)))
    ∧ Model.IsActive { okCancelModel with box := none } = false := by
  refine ⟨okCancelModel_box, by decide, by decide, ?_⟩
  have h := confirm_emits_selected_button okCancelModel okCancelBox okCancelModel_box
    (by decide) (by decide)
  exact h

open MessageBox in
/-- C4: `New` builds the button list by filtering the canonical display order
`[Ok, Yes, No, All, Cancel]` against the requested `boxType` bits — so the
box is active, a button is present iff it is one of the five known buttons
and its bit is set, and the list is a subsequence of the canonical order —
and the initial `selectedButton` is `0` (the single button's index) when
exactly one button is present, otherwise the index of `Cancel` when present,
else the index of `No` when present, else `0`. -/
theorem new_builds_canonical_buttons (m0 : Model) (message : String) (t : BoxType) (b : Button) :
    Model.IsActive (Model.New m0 message t) = true
    ∧ (b ∈ boxButtons (Model.New m0 message t) ↔ (b ∈ canonicalOrder ∧ t &&& b ≠ 0))
    ∧ List.Sublist (boxButtons (Model.New m0 message t)) canonicalOrder
    ∧ ((boxButtons (Model.New m0 message t)).length = 1 →
        boxSelected (Model.New m0 message t) = 0)
    ∧ ((boxButtons (Model.New m0 message t)).length ≠ 1 →
        MB_CANCEL ∈ boxButtons (Model.New m0 message t) →
        0 ≤ boxSelected (Model.New m0 message t)
        ∧ (boxSelected (Model.New m0 message t)).toNat < (boxButtons (Model.New m0 message t)).length
        ∧ (boxButtons (Model.New m0 message t)).getD (boxSelected (Model.New m0 message t)).toNat 0 = MB_CANCEL)
    ∧ ((boxButtons (Model.New m0 message t)).length ≠ 1 →
        MB_CANCEL ∉ boxButtons (Model.New m0 message t) →
        MB_NO ∈ boxButtons (Model.New m0 message t) →
        0 ≤ boxSelected (Model.New m0 message t)
        ∧ (boxSelected (Model.New m0 message t)).toNat < (boxButtons (Model.New m0 message t)).length
        ∧ (boxButtons (Model.New m0 message t)).getD (boxSelected (Model.New m0 message t)).toNat 0 = MB_NO)
    ∧ (MB_CANCEL ∉ boxButtons (Model.New m0 message t) →
        MB_NO ∉ boxButtons (Model.New m0 message t) →
        boxSelected (Model.New m0 message t) = 0) := by
  have hb : boxButtons (Model.New m0 message t) =
      canonicalOrder.filter (fun x => decide (t &&& x ≠ 0)) := rfl
  have hs : boxSelected (Model.New m0 message t) =
      (if (canonicalOrder.filter (fun x => decide (t &&& x ≠ 0))).length = 1 then (0 : Int)
       else
         let s1 := slicesIndex (canonicalOrder.filter (fun x => decide (t &&& x ≠ 0))) MB_CANCEL
         let s2 := if s1 = -1 then slicesIndex (canonicalOrder.filter (fun x => decide (t &&& x ≠ 0))) MB_NO else s1
         if s2 = -1 then 0 else s2) := rfl
  rw [hb, hs]
  set bs := canonicalOrder.filter (fun x => decide (t &&& x ≠ 0)) with hbs
  refine ⟨rfl, ?_, ?_, ?_, ?_, ?_, ?_⟩
  · rw [hbs]
    simp [List.mem_filter]
  · rw [hbs]
    exact List.filter_sublist canonicalOrder
  · intro h1
    rw [if_pos h1]
  · intro h1 hc
    rw [if_neg h1]
    obtain ⟨hc0, hclt, hcget⟩ := slicesIndex_of_mem bs MB_CANCEL hc
    have hc1 : ¬slicesIndex bs MB_CANCEL = -1 := by omega
    simp only [hc1, if_neg, if_false]
    exact ⟨hc0, hclt, hcget⟩
  · intro h1 hc hn
    rw [if_neg h1]
    have hc1 : slicesIndex bs MB_CANCEL = -1 := slicesIndex_of_not_mem bs MB_CANCEL hc
    obtain ⟨hn0, hnlt, hnget⟩ := slicesIndex_of_mem bs MB_NO hn
    have hn1 : ¬slicesIndex bs MB_NO = -1 := by omega
    simp only [hc1, if_pos, if_true, hn1, if_neg, if_false]
    exact ⟨hn0, hnlt, hnget⟩
  · intro hc hn
    have hc1 : slicesIndex bs MB_CANCEL = -1 := slicesIndex_of_not_mem bs MB_CANCEL hc
    have hn1 : slicesIndex bs MB_NO = -1 := slicesIndex_of_not_mem bs MB_NO hn
    by_cases h1 : bs.length = 1
    · rw [if_pos h1]
    · rw [if_neg h1]
      simp only [hc1, hn1, if_pos, if_true]

open MessageBox in
/-- Witness for C4 at the concrete call `New "Are you sure?" OK_CANCEL` and
the probe button `MB_CANCEL`: buttons `[Ok, Cancel]`, `Cancel` selected. -/
theorem new_builds_canonical_buttons_witness :
    Model.IsActive okCancelModel = true
    ∧ (MB_CANCEL ∈ boxButtons okCancelModel ↔ (MB_CANCEL ∈ canonicalOrder ∧ OK_CANCEL &&& MB_CANCEL ≠ 0))
    ∧ List.Sublist (boxButtons okCancelModel) canonicalOrder
    ∧ ((boxButtons okCancelModel).length = 1 → boxSelected okCancelModel = 0)
    ∧ ((boxButtons okCancelModel).length ≠ 1 → MB_CANCEL ∈ boxButtons okCancelModel →
        0 ≤ boxSelected okCancelModel
        ∧ (boxSelected okCancelModel).toNat < (boxButtons okCancelModel).length
        ∧ (boxButtons okCancelModel).getD (boxSelected okCancelModel).toNat 0 = MB_CANCEL)
    ∧ ((boxButtons okCancelModel).length ≠ 1 → MB_CANCEL ∉ boxButtons okCancelModel →
        MB_NO ∈ boxButtons okCancelModel →
        0 ≤ boxSelected okCancelModel
        ∧ (boxSelected okCancelModel).toNat < (boxButtons okCancelModel).length
        ∧ (boxButtons okCancelModel).getD (boxSelected okCancelModel).toNat 0 = MB_NO)
    ∧ (MB_CANCEL ∉ boxButtons okCancelModel → MB_NO ∉ boxButtons okCancelModel →
        boxSelected okCancelModel = 0) :=
  new_builds_canonical_buttons inactiveModel "Are you sure?" OK_CANCEL MB_CANCEL

open MessageBox in
/-- C9: When no message box is active, `Render` returns the base content
exactly, unchanged. -/
theorem render_inactive_returns_content (m : Model) (content : String)
    (h : Model.IsActive m = false) :
    Model.Render m content = content := by
  unfold Model.IsActive at h
  match hb : m.box with
  | none => simp [Model.Render, hb]
  | some bx => rw [hb] at h; simp at h

open MessageBox in
/-- Witness for C9 on a concrete inactive model and base content. -/
theorem render_inactive_returns_content_witness :
    Model.IsActive inactiveModel = false
    ∧ Model.Render inactiveModel "line one\nline two" = "line one\nline two" :=
  ⟨rfl, render_inactive_returns_content inactiveModel "line one\nline two" rfl⟩

open MessageBox in
/-- C10: `New` with a `boxType` sharing no bit with the five known buttons
produces an active box with an empty button list; on that box the
button-cycling branches of `Update` (tab/right, shift-tab/left) hit Go's
integer division by zero and the confirm branch (space/enter) indexes the
empty list — modelled as `Except.error` with the Go panic text — so those
branches are total only when the button list is non-empty; and under the
precondition that the button list is non-empty and the selection is in
range, every `Update` succeeds and keeps `selectedButton` within
`[0, number of buttons)`. -/
theorem update_total_iff_buttons_nonempty (t : BoxType) (m0 : Model) (message : String)
    (m : Model) (bx : box) (msg : TeaMsg)
    (h2 : t &&& MB_OK = 0) (h4 : t &&& MB_CANCEL = 0) (h8 : t &&& MB_YES = 0)
    (h16 : t &&& MB_NO = 0) (h32 : t &&& MB_ALL = 0)
    (hbox : m.box = some bx) (hne : bx.buttons ≠ [])
    (hs0 : 0 ≤ bx.selectedButton)
    (hslt : bx.selectedButton < (bx.buttons.length : Int)) :
    Model.IsActive (Model.New m0 message t) = true
    ∧ boxButtons (Model.New m0 message t) = []
    ∧ Model.Update (Model.New m0 message t) (.key .ctrlI) = .error "runtime error: integer divide by zero"
    ∧ Model.Update (Model.New m0 message t) (.key .right) = .error "runtime error: integer divide by zero"
    ∧ Model.Update (Model.New m0 message t) (.key .shiftTab) = .error "runtime error: integer divide by zero"
    ∧ Model.Update (Model.New m0 message t) (.key .left) = .error "runtime error: integer divide by zero"
    ∧ Model.Update (Model.New m0 message t) (.key .space) = .error "runtime error: index out of range"
    ∧ Model.Update (Model.New m0 message t) (.key .enter) = .error "runtime error: index out of range"
    ∧ invariantAfter bx.buttons (Model.Update m msg) = true := by
  have hbuttons : boxButtons (Model.New m0 message t) = [] := by
    have : canonicalOrder.filter (fun x => decide (t &&& x ≠ 0)) = [] := by
      simp [canonicalOrder, List.filter, h2, h4, h8, h16, h32]
    exact this
  have hf : canonicalOrder.filter (fun x => decide (t &&& x ≠ 0)) = [] := by
    simp [canonicalOrder, List.filter, h2, h4, h8, h16, h32]
  have hboxN : (Model.New m0 message t).box =
      some { message := message, buttons := [], selectedButton := 0 } := by
    unfold Model.New
    rw [hf]
    rfl
  refine ⟨?_, hbuttons, ?_, ?_, ?_, ?_, ?_, ?_, ?_⟩
  · simp [Model.IsActive, hboxN]
  · simp [Model.Update, hboxN]
  · simp [Model.Update, hboxN]
  · simp [Model.Update, hboxN]
  · simp [Model.Update, hboxN]
  · simp [Model.Update, hboxN]
  · simp [Model.Update, hboxN]
  · have hlen : bx.buttons.length ≠ 0 := by
      intro h0
      exact hne (List.length_eq_zero.mp h0)
    have hlenI : (0 : Int) < (bx.buttons.length : Int) := by
      exact_mod_cast Nat.pos_of_ne_zero hlen
    have hlenI0 : ((bx.buttons.length : Int)) ≠ 0 := by omega
    cases msg with
    | other => simp [Model.Update, hbox, invariantAfter, hs0, hslt]
    | key k =>
      cases k with
      | esc => simp [Model.Update, hbox, invariantAfter]
      | ctrlI =>
        simp [Model.Update, hbox, invariantAfter, hlen]
        exact ⟨Int.emod_nonneg _ hlenI0, Int.emod_lt_of_pos _ hlenI⟩
      | right =>
        simp [Model.Update, hbox, invariantAfter, hlen]
        exact ⟨Int.emod_nonneg _ hlenI0, Int.emod_lt_of_pos _ hlenI⟩
      | shiftTab =>
        simp [Model.Update, hbox, invariantAfter, hlen]
        exact ⟨Int.emod_nonneg _ hlenI0, Int.emod_lt_of_pos _ hlenI⟩
      | left =>
        simp [Model.Update, hbox, invariantAfter, hlen]
        exact ⟨Int.emod_nonneg _ hlenI0, Int.emod_lt_of_pos _ hlenI⟩
      | space => simp [Model.Update, hbox, invariantAfter, hs0, hslt]
      | enter => simp [Model.Update, hbox, invariantAfter, hs0, hslt]
      | runes s =>
        cases hfind : bx.buttons.find? (fun b => (keyBindingKeys b).contains s) with
        | none =>
          simp only [List.elem_eq_mem] at hfind
          simp [Model.Update, hbox, invariantAfter, hfind, hs0, hslt]
        | some b =>
          simp only [List.elem_eq_mem] at hfind
          simp [Model.Update, hbox, invariantAfter, hfind]

open MessageBox in
/-- Witness for C10: boxType `0` shares no bit with any button (so `New`
yields an active empty-button box whose cycling and confirm branches panic),
and the concrete `OK_CANCEL` box satisfies the non-empty precondition, with
a forward-tab `Update` succeeding and preserving the selection invariant. -/
theorem update_total_iff_buttons_nonempty_witness :
    okCancelModel.box = some okCancelBox
    ∧ okCancelBox.buttons ≠ []
    ∧ 0 ≤ okCancelBox.selectedButton
    ∧ okCancelBox.selectedButton < (okCancelBox.buttons.length : Int)
    ∧ Model.IsActive (Model.New inactiveModel "x" 0) = true
    ∧ boxButtons (Model.New inactiveModel "x" 0) = []
    ∧ Model.Update (Model.New inactiveModel "x" 0) (.key .ctrlI) = .error "runtime error: integer divide by zero"
    ∧ Model.Update (Model.New inactiveModel "x" 0) (.key .right) = .error "runtime error: integer divide by zero"
    ∧ Model.Update (Model.New inactiveModel "x" 0) (.key .shiftTab) = .error "runtime error: integer divide by zero"
    ∧ Model.Update (Model.New inactiveModel "x" 0) (.key .left) = .error "runtime error: integer divide by zero"
    ∧ Model.Update (Model.New inactiveModel "x" 0) (.key .space) = .error "runtime error: index out of range"
    ∧ Model.Update (Model.New inactiveModel "x" 0) (.key .enter) = .error "runtime error: index out of range"
    ∧ invariantAfter okCancelBox.buttons (Model.Update okCancelModel (.key .ctrlI)) = true := by
  have h := update_total_iff_buttons_nonempty 0 inactiveModel "x"
    okCancelModel okCancelBox (.key .ctrlI)
    (by decide) (by decide) (by decide) (by decide) (by decide)
    okCancelModel_box (by decide) (by decide) (by decide)
  exact ⟨okCancelModel_box, by decide, by decide, by decide,
    h.1, h.2.1, h.2.2.1, h.2.2.2.1, h.2.2.2.2.1, h.2.2.2.2.2.1,
    h.2.2.2.2.2.2.1, h.2.2.2.2.2.2.2.1, h.2.2.2.2.2.2.2.2⟩

open XTable in
/-- C5: On the concrete table with columns `[Strings, Ints, Floats]` and the
four rows in insertion order, `SortBy(0, Ascending, String)` orders the rows
`[abcdEfgh, plmnPOiu, qwerTYui, zxcvBNmj]`, `SortBy(1, Ascending, Numeric)`
orders them `[zxcvBNmj, abcdEfgh, qwerTYui, plmnPOiu]`, and
`SortBy(2, Descending, Numeric)` orders them
`[zxcvBNmj, qwerTYui, abcdEfgh, plmnPOiu]`. -/
theorem sortBy_concrete_orders :
    (SortBy sortTable 0 .SortAscending .SortString).rows =
      [{ Data := ["abcdEfgh", "42", "0.72"], Metadata := none },
       { Data := ["plmnPOiu", "4543534", "-23456.3"], Metadata := none },
       { Data := ["qwerTYui", "123", "4.35"], Metadata := none },
       { Data := ["zxcvBNmj", "-4", "34.3"], Metadata := none }]
    ∧ (SortBy sortTable 1 .SortAscending .SortNumeric).rows =
      [{ Data := ["zxcvBNmj", "-4", "34.3"], Metadata := none },
       { Data := ["abcdEfgh", "42", "0.72"], Metadata := none },
       { Data := ["qwerTYui", "123", "4.35"], Metadata := none },
       { Data := ["plmnPOiu", "4543534", "-23456.3"], Metadata := none }]
    ∧ (SortBy sortTable 2 .SortDescending .SortNumeric).rows =
      [{ Data := ["zxcvBNmj", "-4", "34.3"], Metadata := none },
       { Data := ["qwerTYui", "123", "4.35"], Metadata := none },
       { Data := ["abcdEfgh", "42", "0.72"], Metadata := none },
       { Data := ["plmnPOiu", "4543534", "-23456.3"], Metadata := none }] := by
  decide

open XTable in
theorem removeAt_eq_take_append_drop (l : List Row) (i : Nat) (h : i < l.length) :
    removeAt l i = l.take i ++ l.drop (i + 1) := by
  induction l generalizing i with
  | nil => simp at h
  | cons x xs ih =>
    cases i with
    | zero => simp [removeAt]
    | succ n =>
      simp only [removeAt, List.take_succ_cons, List.drop_succ_cons, List.cons_append]
      rw [ih n (by simpa using h)]

open XTable in
/-- Counterexample for C2 as stated: on the concrete 4-row table,
`RemoveRowByIndex 10` (an index outside `[0, 4)`) returns `true` — not
`false` as claimed — while leaving the table unchanged, exactly as
`TestRemoveRowsByIndex` in `src/xtable/xtable_test.go` requires. -/
theorem removeRowByIndex_out_of_range_returns_true :
    (RemoveRowByIndex biscuitsTable 10).2 = true
    ∧ (RemoveRowByIndex biscuitsTable 10).1 = biscuitsTable := by
  decide

open XTable in
/-- C2 (amended): for every index outside `[0, number of rows)`,
`RemoveRowByIndex` is a no-op on the whole table state but returns `true`
(the spec's claimed `false` contradicts `TestRemoveRowsByIndex`); for every
index inside the range it returns `true` and removes exactly the row at that
position, keeping every other row, column and the cursor. -/
theorem removeRowByIndex_spec (m : TableModel) (i : Int) :
    (¬(0 ≤ i ∧ i < (m.rows.length : Int)) → RemoveRowByIndex m i = (m, true))
    ∧ ((0 ≤ i ∧ i < (m.rows.length : Int)) →
        (RemoveRowByIndex m i).2 = true
        ∧ (RemoveRowByIndex m i).1.rows = m.rows.take i.toNat ++ m.rows.drop (i.toNat + 1)
        ∧ (RemoveRowByIndex m i).1.rows.length + 1 = m.rows.length
        ∧ (RemoveRowByIndex m i).1.cols = m.cols
        ∧ (RemoveRowByIndex m i).1.cursor = m.cursor) := by
  constructor
  · intro h
    simp [RemoveRowByIndex, h]
  · intro h
    have hnat : i.toNat < m.rows.length := by omega
    have hr : removeAt m.rows i.toNat = m.rows.take i.toNat ++ m.rows.drop (i.toNat + 1) :=
      removeAt_eq_take_append_drop m.rows i.toNat hnat
    refine ⟨by simp [RemoveRowByIndex, h], ?_, ?_,
      by simp [RemoveRowByIndex, h], by simp [RemoveRowByIndex, h]⟩
    · simp [RemoveRowByIndex, h, hr]
    · simp [RemoveRowByIndex, h, hr]
      omega

open XTable in
/-- Witness for C2 (amended) at the concrete 4-row table with the in-range
index `0`: the call removes exactly the first row and reports `true`. -/
theorem removeRowByIndex_spec_witness :
    (¬((0 : Int) ≤ 0 ∧ (0 : Int) < (biscuitsTable.rows.length : Int)) →
        RemoveRowByIndex biscuitsTable 0 = (biscuitsTable, true))
    ∧ (((0 : Int) ≤ 0 ∧ (0 : Int) < (biscuitsTable.rows.length : Int)) →
        (RemoveRowByIndex biscuitsTable 0).2 = true
        ∧ (RemoveRowByIndex biscuitsTable 0).1.rows =
            biscuitsTable.rows.take (0 : Int).toNat ++ biscuitsTable.rows.drop ((0 : Int).toNat + 1)
        ∧ (RemoveRowByIndex biscuitsTable 0).1.rows.length + 1 = biscuitsTable.rows.length
        ∧ (RemoveRowByIndex biscuitsTable 0).1.cols = biscuitsTable.cols
        ∧ (RemoveRowByIndex biscuitsTable 0).1.cursor = biscuitsTable.cursor) :=
  removeRowByIndex_spec biscuitsTable 0

open XTable in
/-- C7: on a non-empty table with the cursor in range, `RemoveSelectedRow`
removes exactly the row at the cursor; when rows remain it returns `true`
and the new cursor is `min(previous cursor, new row count − 1)`; when the
removal empties the table it returns `false`. -/
theorem removeSelectedRow_spec (m : TableModel) (hne : m.rows ≠ [])
    (hc : m.cursor < m.rows.length) :
    (RemoveSelectedRow m).1.rows = m.rows.take m.cursor ++ m.rows.drop (m.cursor + 1)
    ∧ (RemoveSelectedRow m).1.rows.length + 1 = m.rows.length
    ∧ (2 ≤ m.rows.length →
        (RemoveSelectedRow m).2 = true
        ∧ (RemoveSelectedRow m).1.cursor = min m.cursor (m.rows.length - 2))
    ∧ (m.rows.length = 1 → (RemoveSelectedRow m).2 = false) := by
  have hr : removeAt m.rows m.cursor = m.rows.take m.cursor ++ m.rows.drop (m.cursor + 1) :=
    removeAt_eq_take_append_drop m.rows m.cursor hc
  have hlen : (removeAt m.rows m.cursor).length + 1 = m.rows.length := by
    rw [hr]
    simp
    omega
  have hsel : RemoveSelectedRow m =
      (if (removeAt m.rows m.cursor).length = 0
       then ({ m with rows := removeAt m.rows m.cursor }, false)
       else
         ({ m with
            rows := removeAt m.rows m.cursor
            cursor := min m.cursor ((removeAt m.rows m.cursor).length - 1) }, true)) := rfl
  by_cases h0 : (removeAt m.rows m.cursor).length = 0
  · rw [hsel, if_pos h0]
    refine ⟨hr, by simpa using hlen, ?_, fun _ => rfl⟩
    intro h2
    omega
  · rw [hsel, if_neg h0]
    refine ⟨hr, by simpa using hlen, ?_, ?_⟩
    · intro h2
      refine ⟨rfl, ?_⟩
      show min m.cursor ((removeAt m.rows m.cursor).length - 1) = min m.cursor (m.rows.length - 2)
      omega
    · intro h1
      omega

open XTable in
/-- Witness for C7: removing the selected row 3 of the concrete 4-row table
leaves 3 rows, returns `true` ("rows remain"), and moves the cursor to
`min(3, 2) = 2`, as `TestRemoveSelectedRow` requires. -/
theorem removeSelectedRow_spec_witness :
    ({ biscuitsTable with cursor := 3 } : TableModel).rows ≠ []
    ∧ ({ biscuitsTable with cursor := 3 } : TableModel).cursor <
        ({ biscuitsTable with cursor := 3 } : TableModel).rows.length
    ∧ (RemoveSelectedRow { biscuitsTable with cursor := 3 }).1.rows =
        ({ biscuitsTable with cursor := 3 } : TableModel).rows.take 3 ++
          ({ biscuitsTable with cursor := 3 } : TableModel).rows.drop 4
    ∧ (RemoveSelectedRow { biscuitsTable with cursor := 3 }).2 = true
    ∧ (RemoveSelectedRow { biscuitsTable with cursor := 3 }).1.cursor = 2 := by
  have h := removeSelectedRow_spec { biscuitsTable with cursor := 3 }
    (by decide) (by decide)
  refine ⟨by decide, by decide, h.1, (h.2.2.1 (by decide)).1, ?_⟩
  have h2 := (h.2.2.1 (by decide)).2
  simpa using h2

open XTable in
theorem decimalDigits_of_lt (n : Nat) (h : n < 10) : decimalDigits n = 1 := by
  rw [decimalDigits]
  simp [h]

open XTable in
theorem decimalDigits_of_ge (n : Nat) (h : 10 ≤ n) :
    decimalDigits n = decimalDigits (n / 10) + 1 := by
  rw [decimalDigits]
  simp [Nat.not_lt.mpr h]

open XTable in
theorem decimalDigits_bounds (n : Nat) (h : 1 ≤ n) :
    10 ^ (decimalDigits n - 1) ≤ n ∧ n < 10 ^ decimalDigits n := by
  induction n using Nat.strong_induction_on with
  | _ n ih =>
    by_cases h10 : n < 10
    · rw [decimalDigits_of_lt n h10]
      simpa using ⟨h, h10⟩
    · push_neg at h10
      have hdiv1 : 1 ≤ n / 10 := Nat.one_le_div_iff (by omega) |>.mpr h10
      have hlt : n / 10 < n := Nat.div_lt_self (by omega) (by omega)
      obtain ⟨hlo, hhi⟩ := ih (n / 10) hlt hdiv1
      rw [decimalDigits_of_ge n h10]
      have hd1 : 1 ≤ decimalDigits (n / 10) := by
        by_cases hx : n / 10 < 10
        · rw [decimalDigits_of_lt _ hx]
        · rw [decimalDigits_of_ge _ (by omega)]
          omega
      constructor
      · have : 10 ^ (decimalDigits (n / 10) - 1) * 10 ≤ (n / 10) * 10 := by
          exact Nat.mul_le_mul_right 10 hlo
        have hmul : (n / 10) * 10 ≤ n := by omega
        calc 10 ^ (decimalDigits (n / 10) + 1 - 1)
            = 10 ^ (decimalDigits (n / 10) - 1) * 10 := by
              rw [Nat.add_sub_cancel]
              rw [← pow_succ]
              congr 1
              omega
          _ ≤ (n / 10) * 10 := this
          _ ≤ n := hmul
      · have : n / 10 + 1 ≤ 10 ^ decimalDigits (n / 10) := hhi
        have h2 : n < (n / 10 + 1) * 10 := by omega
        calc n < (n / 10 + 1) * 10 := h2
          _ ≤ 10 ^ decimalDigits (n / 10) * 10 := Nat.mul_le_mul_right 10 this
          _ = 10 ^ (decimalDigits (n / 10) + 1) := by rw [pow_succ]

open XTable in
theorem decimalDigits_eq_log (n : Nat) (h : 1 ≤ n) :
    decimalDigits n = Nat.log 10 n + 1 := by
  obtain ⟨hlo, hhi⟩ := decimalDigits_bounds n h
  have hd : 1 ≤ decimalDigits n := by
    rcases Nat.eq_zero_or_pos (decimalDigits n) with h0 | h1
    · rw [h0] at hhi
      simp at hhi
      omega
    · exact h1
  have hlog : Nat.log 10 n = decimalDigits n - 1 := by
    apply Nat.log_eq_of_pow_le_of_lt_pow hlo
    have : decimalDigits n - 1 + 1 = decimalDigits n := by omega
    rw [this]
    exact hhi
  omega

open XTable in
/-- Counterexample for C3 as stated: at a row count of 10 the synthetic
row-number column is 2 cells wide (as `TestPad` requires for every count in
[10, 99]), while the claim's formula "number of decimal digits of n − 1"
gives `digits(9) = 1`.  The code computes the digit count of the row count
itself. -/
theorem rowNumberColWidth_ten_rows_counterexample :
    rowNumberColWidth (List.replicate 10 emptyRow) = 2
    ∧ Nat.log 10 (10 - 1) + 1 = 1 := by
  constructor
  · rw [rowNumberColWidth, List.length_replicate, decimalDigits_of_ge 10 (by omega),
      decimalDigits_of_lt 1 (by omega)]
  · have h9 : Nat.log 10 9 = 0 := Nat.log_eq_zero_iff.mpr (Or.inl (by omega))
    have h10 : (10 : Nat) - 1 = 9 := rfl
    rw [h10, h9]

open XTable in
/-- C3 (amended): for every row count `n ≥ 1`, `rowNumberColWidth` is the
number of decimal digits of `n` itself (`log₁₀ n + 1`) — 1 on [1, 9], 2 on
[10, 99], 3 on [100, 999] — increasing by exactly one at each power-of-ten
boundary of the row count (`10^n − 1 → 10^n` rows). -/
theorem rowNumberColWidth_digit_count (n : Nat) (h : 1 ≤ n) :
    rowNumberColWidth (List.replicate n emptyRow) = Nat.log 10 n + 1
    ∧ (n ≤ 9 → rowNumberColWidth (List.replicate n emptyRow) = 1)
    ∧ (10 ≤ n → n ≤ 99 → rowNumberColWidth (List.replicate n emptyRow) = 2)
    ∧ (100 ≤ n → n ≤ 999 → rowNumberColWidth (List.replicate n emptyRow) = 3)
    ∧ rowNumberColWidth (List.replicate (10 ^ n) emptyRow) =
        rowNumberColWidth (List.replicate (10 ^ n - 1) emptyRow) + 1 := by
  have hw : ∀ k : Nat, rowNumberColWidth (List.replicate k emptyRow) = decimalDigits k := by
    intro k
    rw [rowNumberColWidth, List.length_replicate]
  refine ⟨?_, ?_, ?_, ?_, ?_⟩
  · rw [hw]
    exact decimalDigits_eq_log n h
  · intro h9
    rw [hw]
    exact decimalDigits_of_lt n (by omega)
  · intro h10 h99
    rw [hw, decimalDigits_of_ge n h10, decimalDigits_of_lt (n / 10) (by omega)]
  · intro h100 h999
    rw [hw, decimalDigits_of_ge n (by omega),
      decimalDigits_of_ge (n / 10) (by omega),
      decimalDigits_of_lt (n / 10 / 10) (by omega)]
  · rw [hw, hw]
    have hp1 : (1 : Nat) ≤ 10 ^ n := Nat.one_le_pow n 10 (by omega)
    have hd1 : decimalDigits (10 ^ n) = n + 1 := by
      rw [decimalDigits_eq_log _ hp1, Nat.log_pow (by omega)]
    have hd2 : decimalDigits (10 ^ n - 1) = n := by
      have hsub1 : (1 : Nat) ≤ 10 ^ n - 1 := by
        have : (10 : Nat) ^ 1 ≤ 10 ^ n := Nat.pow_le_pow_right (by omega) h
        omega
      rw [decimalDigits_eq_log _ hsub1]
      have hlog : Nat.log 10 (10 ^ n - 1) = n - 1 := by
        apply Nat.log_eq_of_pow_le_of_lt_pow
        · have hlt : (10 : Nat) ^ (n - 1) < 10 ^ n :=
            Nat.pow_lt_pow_right (by omega) (by omega)
          omega
        · have : n - 1 + 1 = n := by omega
          rw [this]
          omega
      omega
    rw [hd1, hd2]

open XTable in
/-- Witness for C3 (amended) at a row count of 100: width 3, the boundary
step from `10^100 − 1` to `10^100` rows included. -/
theorem rowNumberColWidth_digit_count_witness :
    1 ≤ 100
    ∧ (rowNumberColWidth (List.replicate 100 emptyRow) = Nat.log 10 100 + 1
      ∧ (100 ≤ 9 → rowNumberColWidth (List.replicate 100 emptyRow) = 1)
      ∧ (10 ≤ 100 → 100 ≤ 99 → rowNumberColWidth (List.replicate 100 emptyRow) = 2)
      ∧ (100 ≤ 100 → 100 ≤ 999 → rowNumberColWidth (List.replicate 100 emptyRow) = 3)
      ∧ rowNumberColWidth (List.replicate (10 ^ 100) emptyRow) =
          rowNumberColWidth (List.replicate (10 ^ 100 - 1) emptyRow) + 1) :=
  ⟨by omega, rowNumberColWidth_digit_count 100 (by omega)⟩

open XTable in
theorem getD_drop_eq (l : List Row) (s k : Nat) :
    (l.drop s).getD k emptyRow = l.getD (s + k) emptyRow := by
  induction l generalizing s with
  | nil => simp
  | cons x xs ih =>
    cases s with
    | zero => simp
    | succ n =>
      rw [List.drop_succ_cons]
      rw [ih n]
      have : n + 1 + k = (n + k) + 1 := by omega
      rw [this]
      rfl

open XTable in
theorem findAux_eq_none (term : String) (l : List Row) (i : Nat)
    (h : findAux term l i = none) :
    ∀ k, k < l.length → rowMatches term (l.getD k emptyRow) = false := by
  induction l generalizing i with
  | nil => intro k hk; simp at hk
  | cons r rs ih =>
    intro k hk
    by_cases hm : rowMatches term r
    · simp [findAux, hm] at h
    · cases k with
      | zero => simpa using Bool.eq_false_iff.mpr hm
      | succ k' =>
        have h' : findAux term rs (i + 1) = none := by
          simpa [findAux, hm] using h
        exact ih (i + 1) h' k' (by simpa using hk)

open XTable in
theorem findAux_eq_some (term : String) (l : List Row) (i j : Nat)
    (h : findAux term l i = some j) :
    i ≤ j ∧ j - i < l.length ∧ rowMatches term (l.getD (j - i) emptyRow) = true ∧
      ∀ k, k < j - i → rowMatches term (l.getD k emptyRow) = false := by
  induction l generalizing i with
  | nil => simp [findAux] at h
  | cons r rs ih =>
    by_cases hm : rowMatches term r
    · have hj : j = i := by
        have := h
        simp [findAux, hm] at this
        omega
      subst hj
      refine ⟨le_refl _, by simp, by simpa using hm, ?_⟩
      intro k hk
      omega
    · have h' : findAux term rs (i + 1) = some j := by
        simpa [findAux, hm] using h
      obtain ⟨hle, hlt, hmatch, hmin⟩ := ih (i + 1) h'
      have hile : i ≤ j := by omega
      refine ⟨hile, by simp; omega, ?_, ?_⟩
      · have hidx : j - i = (j - (i + 1)) + 1 := by omega
        rw [hidx]
        simpa using hmatch
      · intro k hk
        cases k with
        | zero => simpa using Bool.eq_false_iff.mpr hm
        | succ k' =>
          have : k' < j - (i + 1) := by omega
          have := hmin k' this
          simpa using this

open XTable in
theorem noMatchAfter_eq_true_iff (term : String) (rows : List Row) (lo : Int) (hi : Nat) :
    noMatchAfter term rows lo hi = true ↔
      ∀ j, j < hi → lo < (j : Int) → rowMatches term (rows.getD j emptyRow) = false := by
  simp only [noMatchAfter, List.all_eq_true, List.mem_range, Bool.or_eq_true,
    Bool.not_eq_true', decide_eq_false_iff_not, Bool.not_eq_true, not_lt]
  constructor
  · intro h j hj hlo
    rcases h j hj with h1 | h2
    · omega
    · exact h2
  · intro h j hj
    by_cases hlo : lo < (j : Int)
    · exact Or.inr (h j hj hlo)
    · exact Or.inl (by omega)

open XTable in
/-- C6: `Find(term, fromIndex)` examines only rows at indices strictly
greater than `fromIndex`, in increasing order through the end of the table:
when it returns `false` the table state is unchanged and no row strictly
after `fromIndex` has `term` as an exact, case-sensitive substring of some
data cell; when it returns `true` the rows and columns are untouched and the
cursor is set to the index of the first such matching row (it lies strictly
after `fromIndex`, is in range, matches, and no earlier examined row
matches). -/
theorem find_scans_strictly_after (m : TableModel) (term : String) (f : Int) :
    ((Find m term f).2 = false →
        (Find m term f).1 = m
        ∧ noMatchAfter term m.rows f m.rows.length = true)
    ∧ ((Find m term f).2 = true →
        (Find m term f).1.rows = m.rows
        ∧ (Find m term f).1.cols = m.cols
        ∧ f < ((Find m term f).1.cursor : Int)
        ∧ (Find m term f).1.cursor < m.rows.length
        ∧ rowMatches term (m.rows.getD (Find m term f).1.cursor emptyRow) = true
        ∧ noMatchAfter term m.rows f (Find m term f).1.cursor = true) := by
  have hfind : Find m term f =
      (match findAux term (m.rows.drop (f + 1).toNat) (f + 1).toNat with
       | some j => ({ m with cursor := j }, true)
       | none => (m, false)) := rfl
  cases hfa : findAux term (m.rows.drop (f + 1).toNat) (f + 1).toNat with
  | none =>
    have hF : Find m term f = (m, false) := by rw [hfind, hfa]
    rw [hF]
    dsimp only
    constructor
    · intro _
      refine ⟨rfl, ?_⟩
      rw [noMatchAfter_eq_true_iff]
      intro j hj hlo
      have hs : (f + 1).toNat ≤ j := by omega
      have hk : j - (f + 1).toNat < (m.rows.drop (f + 1).toNat).length := by
        rw [List.length_drop]
        omega
      have := findAux_eq_none term (m.rows.drop (f + 1).toNat) (f + 1).toNat hfa
        (j - (f + 1).toNat) hk
      rw [getD_drop_eq] at this
      have hj2 : (f + 1).toNat + (j - (f + 1).toNat) = j := by omega
      rwa [hj2] at this
    · intro h
      simp at h
  | some j =>
    have hF : Find m term f = ({ m with cursor := j }, true) := by rw [hfind, hfa]
    rw [hF]
    dsimp only
    constructor
    · intro h
      simp at h
    · intro _
      obtain ⟨hle, hlt, hmatch, hmin⟩ :=
        findAux_eq_some term (m.rows.drop (f + 1).toNat) (f + 1).toNat j hfa
      rw [List.length_drop] at hlt
      have hjlen : j < m.rows.length := by omega
      have hjf : f < (j : Int) := by omega
      refine ⟨rfl, rfl, hjf, hjlen, ?_, ?_⟩
      · have := hmatch
        rw [getD_drop_eq] at this
        have hj2 : (f + 1).toNat + (j - (f + 1).toNat) = j := by omega
        rwa [hj2] at this
      · rw [noMatchAfter_eq_true_iff]
        intro k hk hlo
        have hs : (f + 1).toNat ≤ k := by omega
        have hkd : k - (f + 1).toNat < j - (f + 1).toNat := by omega
        have := hmin (k - (f + 1).toNat) hkd
        rw [getD_drop_eq] at this
        have hk2 : (f + 1).toNat + (k - (f + 1).toNat) = k := by omega
        rwa [hk2] at this

open XTable in
/-- Witness for C6 at the biscuits table (`TestFind`): `Find "Yes" 0` skips
the matching row 0 (it is not strictly after index 0), leaves rows and
columns untouched, and sets the cursor to row 2, the first matching row
strictly after index 0. -/
theorem find_scans_strictly_after_witness :
    ((Find biscuitsTable "Yes" 0).2 = false →
        (Find biscuitsTable "Yes" 0).1 = biscuitsTable
        ∧ noMatchAfter "Yes" biscuitsTable.rows 0 biscuitsTable.rows.length = true)
    ∧ ((Find biscuitsTable "Yes" 0).2 = true →
        (Find biscuitsTable "Yes" 0).1.rows = biscuitsTable.rows
        ∧ (Find biscuitsTable "Yes" 0).1.cols = biscuitsTable.cols
        ∧ (0 : Int) < ((Find biscuitsTable "Yes" 0).1.cursor : Int)
        ∧ (Find biscuitsTable "Yes" 0).1.cursor < biscuitsTable.rows.length
        ∧ rowMatches "Yes" (biscuitsTable.rows.getD (Find biscuitsTable "Yes" 0).1.cursor emptyRow) = true
        ∧ noMatchAfter "Yes" biscuitsTable.rows 0 (Find biscuitsTable "Yes" 0).1.cursor = true) :=
  find_scans_strictly_after biscuitsTable "Yes" 0
